import Mathlib

/-!
Shallow embedding of the Befunge-93 interpreter core (`src/rust/src/lib.rs`)
and verification of its specification claims.

Modelling conventions:
* The Rust `StackTy = i64` stack is modelled as `List Int` with the top of the
  stack at the head (the Rust `Vec` keeps the top at the end; the two views are
  mirror images and all push/pop operations are translated accordingly).
* The playfield (a 25 x 80 array of `Command`) is modelled as a total function
  `Nat → Nat → Command`; the interpreter only ever indexes it at in-range
  coordinates.
* Rust `i64 as usize` is a two's-complement bit reinterpretation; for an `i64`
  value `v` the resulting `usize` equals `v mod 2^64`, modelled by `asUsize`.
* Rust `i64` addition, subtraction and multiplication wrap to two's complement
  on overflow (release semantics), modelled by `wrap64`; `i64` division and
  remainder truncate toward zero, modelled by `Int.tdiv` and `Int.tmod`, and
  panic on overflow at dividend `i64::MIN` with divisor `-1` (that check is
  performed in release builds too).
* A Rust panic (division by zero, division overflow, `Option::unwrap` on
  `None`) is a fatal fault distinct from the recoverable `Result::Err`
  channel; the step outcome type `StepOutcome` keeps the two apart
  (`panic` vs `err`).
* The RNG used by the `?` command is externalised: `step` receives the drawn
  index in `Fin 4` as a parameter.  The two blocking stdin commands (`&`, `~`)
  yield a `needsInput` outcome to the driver; no claim concerns input.
-/

namespace Befunge

/-- The closed command set of `lib.rs` (enum `Command`, lines 9-40). -/
inductive Command where
  | Add
  | Sub
  | Mul
  | Div
  | Mod
  | Not
  | Gt
  | Right
  | Left
  | Up
  | Down
  | Rand
  | IfH
  | IfV
  | Str
  | Dup
  | Swap
  | Pop
  | OutI
  | OutC
  | Bri
  | Get
  | Put
  | InI
  | InC
  | End
  | Space
  | Num (n : Nat)
  | Char (c : Char)
deriving DecidableEq, Repr

/-- `Command::as_char` (lib.rs 42-76).  The backtick glyph for `Gt` is code 96
and the double quote glyph for `Str` is code 34.  `Num n` encodes as
`(n + 48) as char` in `u8` arithmetic, hence the reduction mod 256. -/
def as_char : Command → Char
  | .Add => '+'
  | .Sub => '-'
  | .Mul => '*'
  | .Div => '/'
  | .Mod => '%'
  | .Not => '!'
  | .Gt => Char.ofNat 96
  | .Right => '>'
  | .Left => '<'
  | .Up => '^'
  | .Down => 'v'
  | .Rand => '?'
  | .IfH => '_'
  | .IfV => '|'
  | .Str => Char.ofNat 34
  | .Dup => ':'
  | .Swap => '\\'
  | .Pop => '$'
  | .OutI => '.'
  | .OutC => ','
  | .Bri => '#'
  | .Get => 'g'
  | .Put => 'p'
  | .InI => '&'
  | .InC => '~'
  | .End => '@'
  | .Space => ' '
  | .Num n => Char.ofNat ((n + 48) % 256)
  | .Char c => c

/-- `impl From<char> for Command` (lib.rs 78-112): the total decoder.  The
backtick (code 96) and double quote (code 34) arms are written as guards in the
fallback; all arms are mutually exclusive so the order is immaterial.  Digits
`0`..`9` decode via `to_digit(10)`, i.e. `c.toNat - 48`. -/
def fromChar (c : Char) : Command :=
  match c with
  | '+' => .Add
  | '-' => .Sub
  | '*' => .Mul
  | '/' => .Div
  | '%' => .Mod
  | '!' => .Not
  | '>' => .Right
  | '<' => .Left
  | '^' => .Up
  | 'v' => .Down
  | '?' => .Rand
  | '_' => .IfH
  | '|' => .IfV
  | ':' => .Dup
  | '\\' => .Swap
  | '$' => .Pop
  | '.' => .OutI
  | ',' => .OutC
  | '#' => .Bri
  | 'g' => .Get
  | 'p' => .Put
  | '&' => .InI
  | '~' => .InC
  | '@' => .End
  | ' ' => .Space
  | _ =>
      if c = Char.ofNat 96 then .Gt
      else if c = Char.ofNat 34 then .Str
      else if c.isDigit then .Num (c.toNat - 48)
      else .Char c

/-- The byte a command cell contributes when read back (`cmd.as_char() as u8`,
used at lib.rs 307 and 408-409): the char code truncated to 8 bits. -/
def encodeByte (c : Command) : Nat := (as_char c).toNat % 256

/-- True exactly on the `Command::Char` variant. -/
def isCharCmd : Command → Bool
  | .Char _ => true
  | _ => false

/-- True exactly on the `Command::Num` variant. -/
def isNumCmd : Command → Bool
  | .Num _ => true
  | _ => false

/-- The 26 operator glyphs recognised by the decoder (everything except
digits, space and the catch-all literal fallback). -/
def operatorGlyphs : List Char :=
  ['+', '-', '*', '/', '%', '!', Char.ofNat 96, '>', '<', '^', 'v', '?', '_',
   '|', Char.ofNat 34, ':', '\\', '$', '.', ',', '#', 'g', 'p', '&', '~', '@']

def PLAYFIELD_ROWS : Nat := 25
def PLAYFIELD_COLS : Nat := 80

/-- `struct ProgramCounter` (lib.rs 126-130). -/
structure ProgramCounter where
  x : Nat
  y : Nat
deriving DecidableEq, Repr

/-- `ProgramCounter::init` (lib.rs 133-135). -/
def ProgramCounter.init : ProgramCounter := ⟨0, 0⟩

/-- `ProgramCounter::reset` (lib.rs 137-140). -/
def ProgramCounter.reset (_p : ProgramCounter) : ProgramCounter := ⟨0, 0⟩

/-- `ProgramCounter::right` (lib.rs 142-144). -/
def ProgramCounter.right (p : ProgramCounter) : ProgramCounter :=
  { p with x := (p.x + 1) % PLAYFIELD_COLS }

/-- `ProgramCounter::left` (lib.rs 146-152). -/
def ProgramCounter.left (p : ProgramCounter) : ProgramCounter :=
  { p with x := if p.x = 0 then PLAYFIELD_COLS - 1 else p.x - 1 }

/-- `ProgramCounter::down` (lib.rs 154-156). -/
def ProgramCounter.down (p : ProgramCounter) : ProgramCounter :=
  { p with y := (p.y + 1) % PLAYFIELD_ROWS }

/-- `ProgramCounter::up` (lib.rs 158-164). -/
def ProgramCounter.up (p : ProgramCounter) : ProgramCounter :=
  { p with y := if p.y = 0 then PLAYFIELD_ROWS - 1 else p.y - 1 }

/-- The stack contents (`struct Stack(Vec<StackTy>)`, head = top of stack). -/
abbrev Stack := List Int

/-- `Stack::pop` (lib.rs 180-182): underflow-safe, an empty stack yields 0. -/
def Stack.pop : Stack → Int × Stack
  | [] => (0, [])
  | v :: rest => (v, rest)

/-- `Stack::push` (lib.rs 184-186). -/
def Stack.push (s : Stack) (v : Int) : Stack := v :: s

/-- `Stack::peek` (lib.rs 188-190): an empty stack yields 0. -/
def Stack.peek : Stack → Int
  | [] => 0
  | v :: _ => v

/-- `Stack::reset` (lib.rs 176-178). -/
def Stack.reset (_s : Stack) : Stack := []

/-- `enum Direction` (lib.rs 204-210). -/
inductive Direction where
  | Up
  | Down
  | Left
  | Right
deriving DecidableEq, Repr

/-- `enum StepResult` (lib.rs 212-216). -/
inductive StepResult where
  | Cont
  | Stop
deriving DecidableEq, Repr

/-- The recoverable error channel of `step` (the `bail!` / `Err` paths):
the two coordinate errors carry the command glyph (`g` or `p`), the offending
axis and the out-of-range `usize` value (lib.rs 403, 405, 416, 418); the
conversion error carries the `i64` that did not fit in `u8` (lib.rs 422-424). -/
inductive ErrKind where
  | invalidX (cmdGlyph : Char) (x : Nat)
  | invalidY (cmdGlyph : Char) (y : Nat)
  | convertU8 (v : Int)
deriving DecidableEq, Repr

/-- Fatal host-level faults (Rust panics), distinct from the `Result` error
channel: `/` by zero, `%` by zero, `/` and `%` overflow at dividend `i64::MIN`
with divisor `-1` (lib.rs 318-319), and `char::to_digit(10).unwrap()` on a
non-digit (lib.rs 397). -/
inductive PanicKind where
  | divByZero
  | remByZero
  | divOverflow
  | remOverflow
  | toDigitNone (c : Char)
deriving DecidableEq, Repr

/-- The two blocking stdin commands (lib.rs 372-393). -/
inductive InputKind where
  | readInt
  | readChar
deriving DecidableEq, Repr

/-- `struct Interpreter` (lib.rs 218-233).  The RNG field is externalised to a
`Fin 4` parameter of `step` (it is consumed only by the `?` command). -/
structure Interpreter where
  playfield : Nat → Nat → Command
  pc : ProgramCounter
  dir : Direction
  stack : Stack
  stringmode : Bool
  output : String

/-- `Interpreter::new` (lib.rs 243-253). -/
def Interpreter.new : Interpreter :=
  { playfield := fun _ _ => .Space
    pc := ProgramCounter.init
    dir := .Right
    stack := []
    stringmode := false
    output := "" }

/-- Outcome of one `step` call: `ok` is `Ok(StepResult)`, `err` is the `Err`
channel of the returned `Result`, `panic` is a host fault, `needsInput` yields
to the driver for a blocking stdin read.  Every non-`ok` outcome carries the
interpreter state at the point the step gave up. -/
inductive StepOutcome where
  | ok (r : StepResult) (s : Interpreter)
  | err (e : ErrKind) (s : Interpreter)
  | panic (p : PanicKind) (s : Interpreter)
  | needsInput (k : InputKind) (s : Interpreter)

/-- The interpreter state carried by a step outcome. -/
def afterStep : StepOutcome → Interpreter
  | .ok _ s => s
  | .err _ s => s
  | .panic _ s => s
  | .needsInput _ s => s

/-- True when the outcome is `Ok(StepResult::Cont)`. -/
def isContOk : StepOutcome → Bool
  | .ok .Cont _ => true
  | _ => false

/-- The host fault carried by a `panic` outcome, if any. -/
def panicOf : StepOutcome → Option PanicKind
  | .panic p _ => some p
  | _ => none

/-- `Interpreter::advance_pc` (lib.rs 434-441). -/
def advance_pc (s : Interpreter) : Interpreter :=
  match s.dir with
  | .Right => { s with pc := s.pc.right }
  | .Left => { s with pc := s.pc.left }
  | .Up => { s with pc := s.pc.up }
  | .Down => { s with pc := s.pc.down }

/-- The shared tail of every non-terminal dispatch arm (lib.rs 430-431):
advance the program counter, then report `Ok(StepResult::Cont)`. -/
def contOk (s : Interpreter) : StepOutcome := .ok .Cont (advance_pc s)

/-- `Interpreter::binop` (lib.rs 294-298): pop `y`, pop `x`, push `f x y`. -/
def binop (s : Interpreter) (f : Int → Int → Int) : Interpreter :=
  let py := Stack.pop s.stack
  let px := Stack.pop py.2
  { s with stack := Stack.push px.2 (f px.1 py.1) }

/-- Rust `i64 as usize` (lib.rs 399-400, 412-413): two's-complement
reinterpretation, i.e. reduction modulo 2^64 = 18446744073709551616. -/
def asUsize (v : Int) : Nat := (v % 18446744073709551616).toNat

/-- Rust `i64` wrapping (release-mode overflow semantics): reduce into the
two's-complement range [-2^63, 2^63), i.e. [-9223372036854775808,
9223372036854775808).  On in-range values `wrap64` is the identity. -/
def wrap64 (v : Int) : Int :=
  (v + 9223372036854775808) % 18446744073709551616 - 9223372036854775808

/-- The string-mode branch of `Interpreter::step` (lib.rs 303-312): a quote
cell toggles string mode off, every other cell pushes its encoded byte; the
program counter always advances and the step continues. -/
def stringStep (cmd : Command) (s : Interpreter) : StepOutcome :=
  match cmd with
  | .Str => contOk { s with stringmode := false }
  | _ => contOk { s with stack := Stack.push s.stack (encodeByte cmd : Int) }

/-- The normal-mode dispatch of `Interpreter::step` (lib.rs 314-428), one arm
per command, each non-terminal arm ending in `contOk` (the shared
advance-and-continue tail).  The `Add`/`Sub`/`Mul` closures compute in `i64`,
which wraps to two's complement on overflow (`wrap64`).  `Div` and `Mod`
expose the two host traps of `i64` division as `panic` outcomes taken after
both pops, mirroring where the Rust closure would fault inside `binop`:
division by zero, and overflow at dividend `i64::MIN` with divisor `-1`
(checked in that order, as Rust does).  `rnd` is the index drawn by `?`. -/
def execCmd (rnd : Fin 4) (cmd : Command) (s : Interpreter) : StepOutcome :=
  match cmd with
  | .Add => contOk (binop s fun x y => wrap64 (x + y))
  | .Sub => contOk (binop s fun x y => wrap64 (x - y))
  | .Mul => contOk (binop s fun x y => wrap64 (x * y))
  | .Div =>
      let py := Stack.pop s.stack
      let px := Stack.pop py.2
      if py.1 = 0 then .panic .divByZero { s with stack := px.2 }
      else if px.1 = -9223372036854775808 ∧ py.1 = -1 then
        .panic .divOverflow { s with stack := px.2 }
      else contOk { s with stack := Stack.push px.2 (Int.tdiv px.1 py.1) }
  | .Mod =>
      let py := Stack.pop s.stack
      let px := Stack.pop py.2
      if py.1 = 0 then .panic .remByZero { s with stack := px.2 }
      else if px.1 = -9223372036854775808 ∧ py.1 = -1 then
        .panic .remOverflow { s with stack := px.2 }
      else contOk { s with stack := Stack.push px.2 (Int.tmod px.1 py.1) }
  | .Not =>
      let px := Stack.pop s.stack
      contOk { s with stack := Stack.push px.2 (if px.1 = 0 then 1 else 0) }
  | .Gt => contOk (binop s fun x y => if x > y then 1 else 0)
  | .Right => contOk { s with dir := .Right }
  | .Left => contOk { s with dir := .Left }
  | .Up => contOk { s with dir := .Up }
  | .Down => contOk { s with dir := .Down }
  | .Rand =>
      contOk { s with dir := [Direction.Up, .Down, .Left, .Right].get rnd }
  | .IfH =>
      let px := Stack.pop s.stack
      contOk { s with stack := px.2
                      dir := if px.1 = 0 then .Right else .Left }
  | .IfV =>
      let px := Stack.pop s.stack
      contOk { s with stack := px.2
                      dir := if px.1 = 0 then .Down else .Up }
  | .Str => contOk { s with stringmode := !s.stringmode }
  | .Dup => contOk { s with stack := Stack.push s.stack (Stack.peek s.stack) }
  | .Swap =>
      let px := Stack.pop s.stack
      let py := Stack.pop px.2
      contOk { s with stack := Stack.push (Stack.push py.2 px.1) py.1 }
  | .Pop => contOk { s with stack := (Stack.pop s.stack).2 }
  | .OutI =>
      let px := Stack.pop s.stack
      contOk { s with stack := px.2, output := s.output ++ toString px.1 ++ " " }
  | .OutC =>
      let px := Stack.pop s.stack
      contOk { s with stack := px.2
                      output := s.output.push (Char.ofNat (px.1 % 256).toNat) }
  | .InI => .needsInput .readInt s
  | .InC => .needsInput .readChar s
  | .Bri => contOk (advance_pc s)
  | .Space => contOk s
  | .Num n => contOk { s with stack := Stack.push s.stack (n : Int) }
  | .Char c =>
      if c.isDigit then
        contOk { s with stack := Stack.push s.stack ((c.toNat - 48 : Nat) : Int) }
      else .panic (.toDigitNone c) s
  | .Get =>
      let py := Stack.pop s.stack
      let px := Stack.pop py.2
      let y := asUsize py.1
      let x := asUsize px.1
      if PLAYFIELD_COLS ≤ x then .err (.invalidX 'g' x) { s with stack := px.2 }
      else if PLAYFIELD_ROWS ≤ y then .err (.invalidY 'g' y) { s with stack := px.2 }
      else contOk { s with stack := Stack.push px.2 (encodeByte (s.playfield y x) : Int) }
  | .Put =>
      let py := Stack.pop s.stack
      let px := Stack.pop py.2
      let y := asUsize py.1
      let x := asUsize px.1
      if PLAYFIELD_COLS ≤ x then .err (.invalidX 'p' x) { s with stack := px.2 }
      else if PLAYFIELD_ROWS ≤ y then .err (.invalidY 'p' y) { s with stack := px.2 }
      else
        let pv := Stack.pop px.2
        if 0 ≤ pv.1 ∧ pv.1 ≤ 255 then
          contOk { s with stack := pv.2
                          playfield := fun y' x' =>
                            if y' = y ∧ x' = x then fromChar (Char.ofNat pv.1.toNat)
                            else s.playfield y' x' }
        else .err (.convertU8 pv.1) { s with stack := pv.2 }
  | .End => .ok .Stop s

/-- `Interpreter::step` (lib.rs 300-432): fetch the command under the program
counter, take the string-mode branch if the flag is set, otherwise dispatch. -/
def step (rnd : Fin 4) (s : Interpreter) : StepOutcome :=
  let cmd := s.playfield s.pc.y s.pc.x
  if s.stringmode then stringStep cmd s else execCmd rnd cmd s

/-- The state reset performed at the entry of `Interpreter::run`
(lib.rs 444-446): `pc.reset(); stack.reset(); output.clear();`.  The
playfield, the direction, the string-mode flag (and the RNG) are untouched;
the subsequent loop repeatedly calls `step`. -/
def runReset (s : Interpreter) : Interpreter :=
  { s with pc := s.pc.reset
           stack := Stack.reset s.stack
           output := "" }

/-- A playfield holding the same command in every cell. -/
def uniform (c : Command) : Nat → Nat → Command := fun _ _ => c

/-- An interpreter as a prior run could leave it: moving left, string mode on,
over a playfield of `+` cells. -/
def sPrior : Interpreter :=
  { Interpreter.new with playfield := uniform .Add, dir := .Left, stringmode := true }

/-- A fresh interpreter over the same playfield of `+` cells as `sPrior`. -/
def sFresh : Interpreter := { Interpreter.new with playfield := uniform .Add }

/-- A string-mode interpreter over an all-space playfield. -/
def sString : Interpreter := { Interpreter.new with stringmode := true }

/-- A `p` cell about to write value 65 at column 2, row 3. -/
def sPut3 : Interpreter :=
  { Interpreter.new with playfield := uniform .Put, stack := [3, 2, 65] }

/-- A `/` cell about to compute 7 / 2. -/
def sDiv : Interpreter :=
  { Interpreter.new with playfield := uniform .Div, stack := [2, 7] }

/-- A `/` cell about to divide 7 by zero. -/
def sDivZero : Interpreter :=
  { Interpreter.new with playfield := uniform .Div, stack := [0, 7] }

/-- A `+` cell about to add 2^62 to 2^62, which overflows `i64`. -/
def sAddOvf : Interpreter :=
  { Interpreter.new with playfield := uniform .Add
                         stack := [4611686018427387904, 4611686018427387904] }

/-- A `/` cell about to divide `i64::MIN` by -1, which overflows `i64`. -/
def sDivOvf : Interpreter :=
  { Interpreter.new with playfield := uniform .Div
                         stack := [-1, -9223372036854775808] }

/-- A `g` cell about to read at the negative column -1. -/
def sGetOOB : Interpreter :=
  { Interpreter.new with playfield := uniform .Get, stack := [0, -1] }

/-- A `\` cell over an empty stack. -/
def swapState : Interpreter := { Interpreter.new with playfield := uniform .Swap }

/-- A `\` cell over the two-element stack (top 5, below 7). -/
def swapState2 : Interpreter :=
  { Interpreter.new with playfield := uniform .Swap, stack := [5, 7] }

/-- A literal `7` character cell reached in normal mode. -/
def sChar7 : Interpreter := { Interpreter.new with playfield := uniform (.Char '7') }

/-- A `p` cell whose value operand 300 does not fit in a byte. -/
def sPutBadVal : Interpreter :=
  { Interpreter.new with playfield := uniform .Put, stack := [3, 2, 300] }

/-! ## Helper lemmas -/

theorem advance_pc_stack (s : Interpreter) : (advance_pc s).stack = s.stack := by
  cases h : s.dir <;> simp [advance_pc, h]

theorem advance_pc_playfield (s : Interpreter) :
    (advance_pc s).playfield = s.playfield := by
  cases h : s.dir <;> simp [advance_pc, h]

theorem advance_pc_stringmode (s : Interpreter) :
    (advance_pc s).stringmode = s.stringmode := by
  cases h : s.dir <;> simp [advance_pc, h]

set_option maxRecDepth 8192 in
theorem encodeByte_fromChar : ∀ b : Fin 256,
    encodeByte (fromChar (Char.ofNat b)) = b := by decide

theorem encodeByte_fromChar_nat (n : Nat) (h : n < 256) :
    encodeByte (fromChar (Char.ofNat n)) = n := encodeByte_fromChar ⟨n, h⟩

theorem asUsize_ofNat (n : Nat) (h : (n : Int) < 18446744073709551616) :
    asUsize (n : Int) = n := by unfold asUsize; omega

theorem wrap64_eq (v : Int) (hlo : -9223372036854775808 ≤ v)
    (hhi : v < 9223372036854775808) : wrap64 v = v := by unfold wrap64; omega

theorem asUsize_lt_bound (v : Int) (hlo : -9223372036854775808 ≤ v)
    (hhi : v < 9223372036854775808) (n : Nat) (hn : n ≤ 9223372036854775808) :
    asUsize v < n ↔ 0 ≤ v ∧ v < n := by unfold asUsize; omega

/-! ## Claim theorems -/

set_option maxRecDepth 8192 in
/-- C7: the command codec is total — every byte maps to exactly one command,
decimal digits to `Num` of their value, space to `Space`, the operator glyphs
to their named variant (never to the `Num`/`Char`/`Space` fallbacks), and any
other byte to `Char` of itself — and encoding is a left inverse of decoding on
decoding's image: `decode (encode (decode b)) = decode b` for every byte. -/
theorem C7_codec_total_left_inverse : ∀ b : Fin 256,
    ((Char.ofNat b).isDigit = true →
        fromChar (Char.ofNat b) = Command.Num ((Char.ofNat b).toNat - 48)) ∧
    ((b : Nat) = 32 → fromChar (Char.ofNat b) = Command.Space) ∧
    (Char.ofNat b ∈ operatorGlyphs →
        isCharCmd (fromChar (Char.ofNat b)) = false ∧
        isNumCmd (fromChar (Char.ofNat b)) = false ∧
        fromChar (Char.ofNat b) ≠ Command.Space) ∧
    (¬(Char.ofNat b).isDigit = true → (b : Nat) ≠ 32 →
        Char.ofNat b ∉ operatorGlyphs →
        fromChar (Char.ofNat b) = Command.Char (Char.ofNat b)) ∧
    fromChar (Char.ofNat (encodeByte (fromChar (Char.ofNat b)))) =
      fromChar (Char.ofNat b) := by decide

/-- Witness for C7 at the byte 50 (the digit `2`). -/
theorem C7_codec_witness :
    ((Char.ofNat (50 : Fin 256)).isDigit = true →
        fromChar (Char.ofNat (50 : Fin 256)) =
          Command.Num ((Char.ofNat (50 : Fin 256)).toNat - 48)) ∧
    (((50 : Fin 256) : Nat) = 32 →
        fromChar (Char.ofNat (50 : Fin 256)) = Command.Space) ∧
    (Char.ofNat (50 : Fin 256) ∈ operatorGlyphs →
        isCharCmd (fromChar (Char.ofNat (50 : Fin 256))) = false ∧
        isNumCmd (fromChar (Char.ofNat (50 : Fin 256))) = false ∧
        fromChar (Char.ofNat (50 : Fin 256)) ≠ Command.Space) ∧
    (¬(Char.ofNat (50 : Fin 256)).isDigit = true → ((50 : Fin 256) : Nat) ≠ 32 →
        Char.ofNat (50 : Fin 256) ∉ operatorGlyphs →
        fromChar (Char.ofNat (50 : Fin 256)) = Command.Char (Char.ofNat (50 : Fin 256))) ∧
    fromChar (Char.ofNat (encodeByte (fromChar (Char.ofNat (50 : Fin 256))))) =
      fromChar (Char.ofNat (50 : Fin 256)) :=
  C7_codec_total_left_inverse 50

/-- C1 counterexample: the reset at the entry of `run` is NOT a full state
reset.  On an interpreter left by a prior run with direction `Left` and string
mode on, both survive the reset, and the first step of the new run differs
from the first step of a fresh interpreter on the same playfield: the prior
state pushes the byte 43 of the `+` glyph (string mode) where the fresh one
executes `+` (pushing 0 + 0 = 0). -/
theorem C1_counterexample :
    (runReset sPrior).stringmode = true ∧
    (runReset sPrior).dir = Direction.Left ∧
    (afterStep (step 0 (runReset sPrior))).stack = [43] ∧
    (afterStep (step 0 (runReset sFresh))).stack = [0] := by decide

/-- C1 amended: at entry `run` resets the program counter to (0,0), clears the
stack and clears the output buffer, but it preserves the playfield, the
direction and the string-mode flag, so direction and string mode left by a
prior run do carry into a new run. -/
theorem C1_run_entry_reset (s : Interpreter) :
    (runReset s).pc = ProgramCounter.init ∧
    (runReset s).stack = [] ∧
    (runReset s).output = "" ∧
    (runReset s).playfield = s.playfield ∧
    (runReset s).dir = s.dir ∧
    (runReset s).stringmode = s.stringmode :=
  ⟨rfl, rfl, rfl, rfl, rfl, rfl⟩

/-- C8 counterexample: `Swap` is not self-inverse on every stack.  Starting
from the empty stack, two consecutive `\` steps leave the stack `[0, 0]`,
not the original `[]` (each underflowing pop yields 0, which gets pushed). -/
theorem C8_counterexample :
    isContOk (step 0 swapState) = true ∧
    isContOk (step 0 (afterStep (step 0 swapState))) = true ∧
    swapState.stack = [] ∧
    (afterStep (step 0 (afterStep (step 0 swapState)))).stack = [0, 0] := by decide

/-- C8 amended: on every stack with at least two elements, executing the
`Swap` command twice in succession restores the stack to its state before the
first `Swap` (the first execution exchanges the top two elements, the second
exchanges them back). -/
theorem C8_swap_self_inverse (rnd1 rnd2 : Fin 4) (s : Interpreter) (a b : Int)
    (r : Stack)
    (hmode : s.stringmode = false)
    (hcell : s.playfield s.pc.y s.pc.x = Command.Swap)
    (hstack : s.stack = a :: b :: r) :
    ∃ s1, step rnd1 s = .ok .Cont s1 ∧ s1.stack = b :: a :: r ∧
      ∀ t : Interpreter, t.stringmode = false →
        t.playfield t.pc.y t.pc.x = Command.Swap → t.stack = s1.stack →
        ∃ t1, step rnd2 t = .ok .Cont t1 ∧ t1.stack = s.stack := by
  have e1 : step rnd1 s = .ok .Cont (advance_pc { s with stack := b :: a :: r }) := by
    simp [step, hmode, hcell, execCmd, hstack, Stack.pop, Stack.push, contOk]
  refine ⟨_, e1, advance_pc_stack _, ?_⟩
  intro t ht hcellt hstackt
  have hts : t.stack = b :: a :: r := by rw [hstackt, advance_pc_stack]
  have e2 : step rnd2 t = .ok .Cont (advance_pc { t with stack := a :: b :: r }) := by
    simp [step, ht, hcellt, execCmd, hts, Stack.pop, Stack.push, contOk]
  exact ⟨_, e2, by rw [advance_pc_stack, hstack]⟩

/-- Witness for C8's amended theorem: on the stack (top 5, below 7) under a
playfield of `\` cells, the first swap yields [7, 5] and the second [5, 7]. -/
theorem C8_swap_witness :
    ∃ s1, step 0 swapState2 = .ok .Cont s1 ∧ s1.stack = [7, 5] ∧
      ∀ t : Interpreter, t.stringmode = false →
        t.playfield t.pc.y t.pc.x = Command.Swap → t.stack = s1.stack →
        ∃ t1, step 0 t = .ok .Cont t1 ∧ t1.stack = swapState2.stack :=
  C8_swap_self_inverse 0 0 swapState2 5 7 [] rfl rfl rfl

/-- C2: with string mode active, a step on a quote (`Str`) cell toggles the
flag off and pushes nothing; a step on any other cell pushes that cell's
encoded byte value onto the stack instead of dispatching it; in both cases the
program counter then advances one cell in the current direction and the step
reports continuation, never termination. -/
theorem C2_stringmode_step (rnd : Fin 4) (s : Interpreter)
    (h : s.stringmode = true) :
    (s.playfield s.pc.y s.pc.x = Command.Str →
        step rnd s = .ok .Cont (advance_pc { s with stringmode := false })) ∧
    (s.playfield s.pc.y s.pc.x ≠ Command.Str →
        step rnd s = .ok .Cont (advance_pc
          { s with stack := Stack.push s.stack (encodeByte (s.playfield s.pc.y s.pc.x) : Int) })) := by
  constructor
  · intro hc
    simp [step, h, hc, stringStep, contOk]
  · intro hc
    cases hcmd : s.playfield s.pc.y s.pc.x <;>
      first
        | exact absurd hcmd hc
        | simp [step, h, hcmd, stringStep, contOk]

/-- Witness for C2 on a string-mode interpreter over an all-space playfield:
the space cell is not a quote, so its byte 32 is pushed. -/
theorem C2_stringmode_witness :
    (sString.playfield sString.pc.y sString.pc.x = Command.Str →
        step 0 sString = .ok .Cont (advance_pc { sString with stringmode := false })) ∧
    (sString.playfield sString.pc.y sString.pc.x ≠ Command.Str →
        step 0 sString = .ok .Cont (advance_pc
          { sString with stack := Stack.push sString.stack (encodeByte (sString.playfield sString.pc.y sString.pc.x) : Int) })) :=
  C2_stringmode_step 0 sString rfl

/-- C4 counterexample: the step does not always push the mathematical value
`x OP y` — `i64` addition wraps on overflow.  On a `+` cell over the stack
holding 2^62 twice, the step continues and pushes -2^63, which is not
2^62 + 2^62 = 2^63. -/
theorem C4_counterexample :
    isContOk (step 0 sAddOvf) = true ∧
    (afterStep (step 0 sAddOvf)).stack = [-9223372036854775808] ∧
    (-9223372036854775808 : Int) ≠ 4611686018427387904 + 4611686018427387904 := by
  decide

/-- C4 amended: every normal-mode arithmetic step pops `y` first and `x`
second (each pop yielding 0 on an empty stack) and pushes the single value
`x OP y` computed in `i64`, with `x` the left and `y` the right operand: for
`Add`/`Sub`/`Mul` the pushed value is `x OP y` wrapped to two's complement,
which equals the mathematical `x OP y` whenever that is representable in
`i64`; for `Div` and `Mod` (toward-zero semantics) under the hypotheses that
the first-popped `y` is nonzero and the operands are not the overflowing pair
(`i64::MIN`, -1) the pushed value is exactly `x OP y`; `Gt` pops `y` then `x`
and pushes 1 if `x > y`, else 0. -/
theorem C4_binop_operand_order (rnd : Fin 4) (s : Interpreter) (y x : Int)
    (st1 st2 : Stack)
    (hmode : s.stringmode = false)
    (hy : Stack.pop s.stack = (y, st1)) (hx : Stack.pop st1 = (x, st2)) :
    (s.playfield s.pc.y s.pc.x = Command.Add →
        step rnd s = .ok .Cont (advance_pc { s with stack := Stack.push st2 (wrap64 (x + y)) })) ∧
    (s.playfield s.pc.y s.pc.x = Command.Sub →
        step rnd s = .ok .Cont (advance_pc { s with stack := Stack.push st2 (wrap64 (x - y)) })) ∧
    (s.playfield s.pc.y s.pc.x = Command.Mul →
        step rnd s = .ok .Cont (advance_pc { s with stack := Stack.push st2 (wrap64 (x * y)) })) ∧
    (s.playfield s.pc.y s.pc.x = Command.Div → y ≠ 0 →
        ¬(x = -9223372036854775808 ∧ y = -1) →
        step rnd s = .ok .Cont (advance_pc { s with stack := Stack.push st2 (Int.tdiv x y) })) ∧
    (s.playfield s.pc.y s.pc.x = Command.Mod → y ≠ 0 →
        ¬(x = -9223372036854775808 ∧ y = -1) →
        step rnd s = .ok .Cont (advance_pc { s with stack := Stack.push st2 (Int.tmod x y) })) ∧
    (s.playfield s.pc.y s.pc.x = Command.Gt →
        step rnd s = .ok .Cont (advance_pc
          { s with stack := Stack.push st2 (if x > y then 1 else 0) })) ∧
    (∀ v : Int, -9223372036854775808 ≤ v → v < 9223372036854775808 → wrap64 v = v) := by
  refine ⟨?_, ?_, ?_, ?_, ?_, ?_, wrap64_eq⟩
  · intro hc; simp [step, hmode, hc, execCmd, binop, hy, hx, contOk]
  · intro hc; simp [step, hmode, hc, execCmd, binop, hy, hx, contOk]
  · intro hc; simp [step, hmode, hc, execCmd, binop, hy, hx, contOk]
  · intro hc hy0 hov; simp [step, hmode, hc, execCmd, hy, hx, hy0, hov, contOk]
  · intro hc hy0 hov; simp [step, hmode, hc, execCmd, hy, hx, hy0, hov, contOk]
  · intro hc; simp [step, hmode, hc, execCmd, binop, hy, hx, contOk]

/-- Witness for C4's amended theorem on a `/` cell over the stack (top 2,
below 7): the step pops y = 2 then x = 7 and pushes 7 / 2 = 3. -/
theorem C4_binop_witness :
    (sDiv.playfield sDiv.pc.y sDiv.pc.x = Command.Add →
        step 0 sDiv = .ok .Cont (advance_pc { sDiv with stack := Stack.push [] (wrap64 (7 + 2)) })) ∧
    (sDiv.playfield sDiv.pc.y sDiv.pc.x = Command.Sub →
        step 0 sDiv = .ok .Cont (advance_pc { sDiv with stack := Stack.push [] (wrap64 (7 - 2)) })) ∧
    (sDiv.playfield sDiv.pc.y sDiv.pc.x = Command.Mul →
        step 0 sDiv = .ok .Cont (advance_pc { sDiv with stack := Stack.push [] (wrap64 (7 * 2)) })) ∧
    (sDiv.playfield sDiv.pc.y sDiv.pc.x = Command.Div → (2 : Int) ≠ 0 →
        ¬((7 : Int) = -9223372036854775808 ∧ (2 : Int) = -1) →
        step 0 sDiv = .ok .Cont (advance_pc { sDiv with stack := Stack.push [] (Int.tdiv 7 2) })) ∧
    (sDiv.playfield sDiv.pc.y sDiv.pc.x = Command.Mod → (2 : Int) ≠ 0 →
        ¬((7 : Int) = -9223372036854775808 ∧ (2 : Int) = -1) →
        step 0 sDiv = .ok .Cont (advance_pc { sDiv with stack := Stack.push [] (Int.tmod 7 2) })) ∧
    (sDiv.playfield sDiv.pc.y sDiv.pc.x = Command.Gt →
        step 0 sDiv = .ok .Cont (advance_pc
          { sDiv with stack := Stack.push [] (if (7 : Int) > 2 then 1 else 0) })) ∧
    (∀ v : Int, -9223372036854775808 ≤ v → v < 9223372036854775808 → wrap64 v = v) :=
  C4_binop_operand_order 0 sDiv 2 7 [7] [] rfl rfl rfl

/-- C6 counterexample: the claim's totality under a nonzero first-popped
operand is false — dividing `i64::MIN` by -1 panics with the host overflow
fault even though the divisor -1 is nonzero. -/
theorem C6_counterexample :
    panicOf (step 0 sDivOvf) = some PanicKind.divOverflow ∧ (-1 : Int) ≠ 0 := by
  decide

/-- C6 amended: for `Div` and `Mod`, when the first-popped operand `y` is
nonzero and the operands are not the overflowing pair (`i64::MIN`, -1), the
step is total and pushes `x / y` (resp. `x % y`, toward-zero semantics); when
`y` is zero the division is unguarded and signals the host divide-by-zero
fault, and at (`i64::MIN`, -1) it signals the host overflow fault — both are
`panic` outcomes taken after both pops, never the step's recoverable `err`
result, and under the combined precondition both fault branches are
unreachable. -/
theorem C6_div_mod_by_zero (rnd : Fin 4) (s : Interpreter) (y x : Int)
    (st1 st2 : Stack)
    (hmode : s.stringmode = false)
    (hy : Stack.pop s.stack = (y, st1)) (hx : Stack.pop st1 = (x, st2)) :
    (s.playfield s.pc.y s.pc.x = Command.Div → y ≠ 0 →
        ¬(x = -9223372036854775808 ∧ y = -1) →
        step rnd s = .ok .Cont (advance_pc { s with stack := Stack.push st2 (Int.tdiv x y) })) ∧
    (s.playfield s.pc.y s.pc.x = Command.Div → y = 0 →
        step rnd s = .panic .divByZero { s with stack := st2 }) ∧
    (s.playfield s.pc.y s.pc.x = Command.Div → x = -9223372036854775808 → y = -1 →
        step rnd s = .panic .divOverflow { s with stack := st2 }) ∧
    (s.playfield s.pc.y s.pc.x = Command.Mod → y ≠ 0 →
        ¬(x = -9223372036854775808 ∧ y = -1) →
        step rnd s = .ok .Cont (advance_pc { s with stack := Stack.push st2 (Int.tmod x y) })) ∧
    (s.playfield s.pc.y s.pc.x = Command.Mod → y = 0 →
        step rnd s = .panic .remByZero { s with stack := st2 }) ∧
    (s.playfield s.pc.y s.pc.x = Command.Mod → x = -9223372036854775808 → y = -1 →
        step rnd s = .panic .remOverflow { s with stack := st2 }) := by
  refine ⟨?_, ?_, ?_, ?_, ?_, ?_⟩
  · intro hc hy0 hov; simp [step, hmode, hc, execCmd, hy, hx, hy0, hov, contOk]
  · intro hc hy0; simp [step, hmode, hc, execCmd, hy, hx, hy0, contOk]
  · intro hc hxm hym; simp [step, hmode, hc, execCmd, hy, hx, hxm, hym, contOk]
  · intro hc hy0 hov; simp [step, hmode, hc, execCmd, hy, hx, hy0, hov, contOk]
  · intro hc hy0; simp [step, hmode, hc, execCmd, hy, hx, hy0, contOk]
  · intro hc hxm hym; simp [step, hmode, hc, execCmd, hy, hx, hxm, hym, contOk]

/-- Witness for C6's amended theorem on a `/` cell over the stack (top 0,
below 7): the divisor popped first is zero, so the step panics rather than
returning an error. -/
theorem C6_div_mod_witness :
    (sDivZero.playfield sDivZero.pc.y sDivZero.pc.x = Command.Div → (0 : Int) ≠ 0 →
        ¬((7 : Int) = -9223372036854775808 ∧ (0 : Int) = -1) →
        step 0 sDivZero = .ok .Cont (advance_pc
          { sDivZero with stack := Stack.push [] (Int.tdiv 7 0) })) ∧
    (sDivZero.playfield sDivZero.pc.y sDivZero.pc.x = Command.Div → (0 : Int) = 0 →
        step 0 sDivZero = .panic .divByZero { sDivZero with stack := [] }) ∧
    (sDivZero.playfield sDivZero.pc.y sDivZero.pc.x = Command.Div →
        (7 : Int) = -9223372036854775808 → (0 : Int) = -1 →
        step 0 sDivZero = .panic .divOverflow { sDivZero with stack := [] }) ∧
    (sDivZero.playfield sDivZero.pc.y sDivZero.pc.x = Command.Mod → (0 : Int) ≠ 0 →
        ¬((7 : Int) = -9223372036854775808 ∧ (0 : Int) = -1) →
        step 0 sDivZero = .ok .Cont (advance_pc
          { sDivZero with stack := Stack.push [] (Int.tmod 7 0) })) ∧
    (sDivZero.playfield sDivZero.pc.y sDivZero.pc.x = Command.Mod → (0 : Int) = 0 →
        step 0 sDivZero = .panic .remByZero { sDivZero with stack := [] }) ∧
    (sDivZero.playfield sDivZero.pc.y sDivZero.pc.x = Command.Mod →
        (7 : Int) = -9223372036854775808 → (0 : Int) = -1 →
        step 0 sDivZero = .panic .remOverflow { sDivZero with stack := [] }) :=
  C6_div_mod_by_zero 0 sDivZero 0 7 [7] [] rfl rfl rfl

/-- C9: a normal-mode step on a `Char c` cell pushes the digit value of `c`
when `c` is itself a decimal digit; when it is not, the `to_digit` conversion
panics (a host fault, not a recoverable step error), so under the digit
precondition that failure branch is unreachable. -/
theorem C9_char_digit_coercion (rnd : Fin 4) (s : Interpreter) (c : Char)
    (hmode : s.stringmode = false)
    (hcell : s.playfield s.pc.y s.pc.x = Command.Char c) :
    (c.isDigit = true →
        step rnd s = .ok .Cont (advance_pc
          { s with stack := Stack.push s.stack ((c.toNat - 48 : Nat) : Int) })) ∧
    (c.isDigit = false → step rnd s = .panic (.toDigitNone c) s) := by
  constructor <;> intro hdig <;> simp [step, hmode, hcell, execCmd, hdig, contOk]

/-- Witness for C9 on a literal `7` cell: the digit value 7 is pushed. -/
theorem C9_char_digit_witness :
    (Char.isDigit '7' = true →
        step 0 sChar7 = .ok .Cont (advance_pc
          { sChar7 with stack := Stack.push sChar7.stack ((Char.toNat '7' - 48 : Nat) : Int) })) ∧
    (Char.isDigit '7' = false → step 0 sChar7 = .panic (.toDigitNone '7') sChar7) :=
  C9_char_digit_coercion 0 sChar7 '7' rfl rfl

/-- C5: every `Get` or `Put` whose popped x coordinate lies outside [0,80) or
whose popped y coordinate lies outside [0,25) — including every negative
coordinate (any `i64`-range value) — fails with a coordinate error naming the
offending axis and the `usize` reinterpretation of its value; the step returns
the fatal error channel (never `ok`), and the playfield is left untouched:
the coordinate is never silently wrapped into bounds. -/
theorem C5_oob_get_put (rnd : Fin 4) (s : Interpreter) (yv xv : Int)
    (r : Stack) (g : Char)
    (hmode : s.stringmode = false)
    (hcell : (s.playfield s.pc.y s.pc.x = Command.Get ∧ g = 'g') ∨
             (s.playfield s.pc.y s.pc.x = Command.Put ∧ g = 'p'))
    (hstack : s.stack = yv :: xv :: r)
    (hx64 : -9223372036854775808 ≤ xv ∧ xv < 9223372036854775808)
    (hy64 : -9223372036854775808 ≤ yv ∧ yv < 9223372036854775808)
    (hout : xv < 0 ∨ 80 ≤ xv ∨ yv < 0 ∨ 25 ≤ yv) :
    ∃ e s2, step rnd s = .err e s2 ∧
      (e = ErrKind.invalidX g (asUsize xv) ∨ e = ErrKind.invalidY g (asUsize yv)) ∧
      s2.playfield = s.playfield ∧ s2.stack = r := by
  have hiff_x := asUsize_lt_bound xv hx64.1 hx64.2 80 (by norm_num)
  have hiff_y := asUsize_lt_bound yv hy64.1 hy64.2 25 (by norm_num)
  by_cases hX : 80 ≤ asUsize xv
  · have hX' : PLAYFIELD_COLS ≤ asUsize xv := hX
    rcases hcell with ⟨hc, hg⟩ | ⟨hc, hg⟩ <;> subst hg
    · refine ⟨ErrKind.invalidX 'g' (asUsize xv), { s with stack := r }, ?_, Or.inl rfl, rfl, rfl⟩
      simp [step, hmode, hc, execCmd, hstack, Stack.pop, hX']
    · refine ⟨ErrKind.invalidX 'p' (asUsize xv), { s with stack := r }, ?_, Or.inl rfl, rfl, rfl⟩
      simp [step, hmode, hc, execCmd, hstack, Stack.pop, hX']
  · have hY : 25 ≤ asUsize yv := by omega
    have hXn : ¬(PLAYFIELD_COLS ≤ asUsize xv) := by simpa [PLAYFIELD_COLS] using hX
    have hY' : PLAYFIELD_ROWS ≤ asUsize yv := hY
    rcases hcell with ⟨hc, hg⟩ | ⟨hc, hg⟩ <;> subst hg
    · refine ⟨ErrKind.invalidY 'g' (asUsize yv), { s with stack := r }, ?_, Or.inr rfl, rfl, rfl⟩
      simp [step, hmode, hc, execCmd, hstack, Stack.pop, hXn, hY']
    · refine ⟨ErrKind.invalidY 'p' (asUsize yv), { s with stack := r }, ?_, Or.inr rfl, rfl, rfl⟩
      simp [step, hmode, hc, execCmd, hstack, Stack.pop, hXn, hY']

/-- Witness for C5 on a `g` cell with popped coordinates y = 0, x = -1: the
negative column is rejected with a coordinate error and nothing is read. -/
theorem C5_oob_witness :
    ∃ e s2, step 0 sGetOOB = .err e s2 ∧
      (e = ErrKind.invalidX 'g' (asUsize (-1)) ∨ e = ErrKind.invalidY 'g' (asUsize 0)) ∧
      s2.playfield = sGetOOB.playfield ∧ s2.stack = [] :=
  C5_oob_get_put 0 sGetOOB 0 (-1) [] 'g' rfl (Or.inl ⟨rfl, rfl⟩) rfl
    (by norm_num) (by norm_num) (Or.inl (by norm_num))

/-- C10: a `Put` step failing its coordinate bounds check has popped exactly
the two coordinate operands (y then x), leaves the value operand on the stack
unpopped, and leaves the playfield unchanged; a `Put` step whose popped value
does not fit in 8 bits has popped three operands and likewise leaves the
playfield unchanged — a failing `Put` never modifies any grid cell. -/
theorem C10_put_failure_frame (rnd : Fin 4) (s : Interpreter) (yv xv v : Int)
    (r : Stack)
    (hmode : s.stringmode = false)
    (hcell : s.playfield s.pc.y s.pc.x = Command.Put)
    (hstack : s.stack = yv :: xv :: v :: r) :
    (¬(asUsize xv < PLAYFIELD_COLS ∧ asUsize yv < PLAYFIELD_ROWS) →
        ∃ e s2, step rnd s = .err e s2 ∧
          (e = ErrKind.invalidX 'p' (asUsize xv) ∨ e = ErrKind.invalidY 'p' (asUsize yv)) ∧
          s2.playfield = s.playfield ∧ s2.stack = v :: r) ∧
    (asUsize xv < PLAYFIELD_COLS → asUsize yv < PLAYFIELD_ROWS → ¬(0 ≤ v ∧ v ≤ 255) →
        ∃ s2, step rnd s = .err (ErrKind.convertU8 v) s2 ∧
          s2.playfield = s.playfield ∧ s2.stack = r) := by
  constructor
  · intro hbad
    by_cases hX : PLAYFIELD_COLS ≤ asUsize xv
    · refine ⟨ErrKind.invalidX 'p' (asUsize xv), { s with stack := v :: r }, ?_, Or.inl rfl, rfl, rfl⟩
      simp [step, hmode, hcell, execCmd, hstack, Stack.pop, hX]
    · have hY : PLAYFIELD_ROWS ≤ asUsize yv := by omega
      refine ⟨ErrKind.invalidY 'p' (asUsize yv), { s with stack := v :: r }, ?_, Or.inr rfl, rfl, rfl⟩
      simp [step, hmode, hcell, execCmd, hstack, Stack.pop, hX, hY]
  · intro hx hy hv
    have hXn : ¬(PLAYFIELD_COLS ≤ asUsize xv) := by omega
    have hYn : ¬(PLAYFIELD_ROWS ≤ asUsize yv) := by omega
    refine ⟨{ s with stack := r }, ?_, rfl, rfl⟩
    simp [step, hmode, hcell, execCmd, hstack, Stack.pop, hXn, hYn, hv]

/-- Witness for C10 on a `p` cell with in-bounds coordinates (x = 2, y = 3)
and the value 300, which does not fit in a byte: three pops, then an error
with the playfield untouched. -/
theorem C10_put_failure_witness :
    (¬(asUsize 2 < PLAYFIELD_COLS ∧ asUsize 3 < PLAYFIELD_ROWS) →
        ∃ e s2, step 0 sPutBadVal = .err e s2 ∧
          (e = ErrKind.invalidX 'p' (asUsize 2) ∨ e = ErrKind.invalidY 'p' (asUsize 3)) ∧
          s2.playfield = sPutBadVal.playfield ∧ s2.stack = (300 : Int) :: []) ∧
    (asUsize 2 < PLAYFIELD_COLS → asUsize 3 < PLAYFIELD_ROWS →
        ¬((0 : Int) ≤ 300 ∧ (300 : Int) ≤ 255) →
        ∃ s2, step 0 sPutBadVal = .err (ErrKind.convertU8 300) s2 ∧
          s2.playfield = sPutBadVal.playfield ∧ s2.stack = []) :=
  C10_put_failure_frame 0 sPutBadVal 3 2 300 [] rfl rfl rfl

/-- C3: for in-bounds coordinates (x < 80, y < 25) and a byte-range value v,
executing `Put` with operands v, x, y (pushed in that order, so y is on top)
writes the decoded byte at row y, column x, and a subsequent `Get` over the
same grid cell with operands x, y pushes v back onto the stack: writing a byte
and reading the same cell round-trips through the command codec. -/
theorem C3_put_get_roundtrip (rnd1 rnd2 : Fin 4) (s : Interpreter) (x y : Nat)
    (v : Int) (r1 : Stack)
    (hmode : s.stringmode = false)
    (hcell : s.playfield s.pc.y s.pc.x = Command.Put)
    (hstack : s.stack = (y : Int) :: (x : Int) :: v :: r1)
    (hx : x < 80) (hy : y < 25) (hv0 : 0 ≤ v) (hv1 : v ≤ 255) :
    ∃ s1, step rnd1 s = .ok .Cont s1 ∧
      s1.playfield y x = fromChar (Char.ofNat v.toNat) ∧
      ∀ (t : Interpreter) (r2 : Stack),
        t.stringmode = false →
        t.playfield t.pc.y t.pc.x = Command.Get →
        t.playfield y x = s1.playfield y x →
        t.stack = (y : Int) :: (x : Int) :: r2 →
        ∃ t1, step rnd2 t = .ok .Cont t1 ∧ t1.stack = v :: r2 := by
  have hax : asUsize (x : Int) = x := asUsize_ofNat x (by omega)
  have hay : asUsize (y : Int) = y := asUsize_ofNat y (by omega)
  have hXn : ¬(PLAYFIELD_COLS ≤ x) := by simp only [PLAYFIELD_COLS]; omega
  have hYn : ¬(PLAYFIELD_ROWS ≤ y) := by simp only [PLAYFIELD_ROWS]; omega
  have hvr : 0 ≤ v ∧ v ≤ 255 := ⟨hv0, hv1⟩
  have e1 : step rnd1 s = .ok .Cont (advance_pc
      { s with stack := r1
               playfield := fun y' x' =>
                 if y' = y ∧ x' = x then fromChar (Char.ofNat v.toNat)
                 else s.playfield y' x' }) := by
    simp [step, hmode, hcell, execCmd, hstack, Stack.pop, hax, hay, hXn, hYn, hvr, contOk]
  have hpf : (advance_pc
      { s with stack := r1
               playfield := fun y' x' =>
                 if y' = y ∧ x' = x then fromChar (Char.ofNat v.toNat)
                 else s.playfield y' x' }).playfield y x = fromChar (Char.ofNat v.toNat) := by
    rw [advance_pc_playfield]; simp
  refine ⟨_, e1, hpf, ?_⟩
  intro t r2 htmode htcell hteq htstack
  have h2 : t.playfield y x = fromChar (Char.ofNat v.toNat) := by rw [hteq, hpf]
  have henc : encodeByte (t.playfield y x) = v.toNat := by
    rw [h2]; exact encodeByte_fromChar_nat v.toNat (by omega)
  have e2 : step rnd2 t = .ok .Cont (advance_pc { t with stack := v :: r2 }) := by
    simp [step, htmode, htcell, execCmd, htstack, Stack.pop, hax, hay, hXn, hYn, contOk,
          henc, Int.toNat_of_nonneg hv0, Stack.push]
  exact ⟨_, e2, advance_pc_stack _⟩

/-- Witness for C3 writing the byte 65 at column 2, row 3 and reading it
back. -/
theorem C3_roundtrip_witness :
    ∃ s1, step 0 sPut3 = .ok .Cont s1 ∧
      s1.playfield 3 2 = fromChar (Char.ofNat (Int.toNat 65)) ∧
      ∀ (t : Interpreter) (r2 : Stack),
        t.stringmode = false →
        t.playfield t.pc.y t.pc.x = Command.Get →
        t.playfield 3 2 = s1.playfield 3 2 →
        t.stack = ((3 : Nat) : Int) :: ((2 : Nat) : Int) :: r2 →
        ∃ t1, step 0 t = .ok .Cont t1 ∧ t1.stack = 65 :: r2 :=
  C3_put_get_roundtrip 0 0 sPut3 2 3 65 [] rfl rfl (by decide)
    (by norm_num) (by norm_num) (by norm_num) (by norm_num)

end Befunge
